import Mathlib

/-!
Shallow embedding of the `rbmstable-parser` crate (files `src/lib.rs`,
`src/parser.rs`, `src/modal.rs`).

Modelling conventions:
* Rust `String`/`&str` values are Lean `String`s; position-based Rust string
  operations (byte offsets) are modelled as character offsets on `String.data`.
  Every concrete string appearing in a theorem below is ASCII, where byte and
  character offsets coincide; ordering of Rust strings (byte-lexicographic) is
  modelled as codepoint-lexicographic, which agrees with it on all valid UTF-8.
* A Rust panic (`unwrap` of `None`, out-of-bounds slice) is modelled by the
  value `none` of an `Option` result; a returned `Result` is `some`.
  `usize` underflow in `meta_line.len() - 4` is modelled by truncated `Nat`
  subtraction; in both Rust debug (panic) and release (wrap, then the
  out-of-range slice panics) semantics the program aborts there, and in the
  model the subsequent bounds-checked slice yields `none` as well.
* The external collaborators (the `reqwest` fetch, and the text-level JSON
  parser of `serde_json`) are a record of functions `Env`.  The struct-level
  deserialization semantics (required fields, `#[serde(default)]`,
  `#[serde(skip)]`, `rename`, custom course lifting) is repository code
  (derive attributes in `modal.rs`) and is embedded explicitly, operating on
  an abstract parsed JSON object (`HeaderDoc`, `ElementDoc`) whose `Option`
  fields record presence of each known key.
* `f32` trophy rates carry no arithmetic anywhere in the crate; they are
  modelled as `Rat`.
-/

/-! ## Rust string primitives (character-offset model) -/

/-- `isPrefixL pat l` models Rust `str::starts_with` on character lists. -/
def isPrefixL : List Char → List Char → Bool
  | [], _ => true
  | _ :: _, [] => false
  | a :: as_, b :: bs => a = b && isPrefixL as_ bs

/-- Rust `s.starts_with(pat)`. -/
def rustStartsWith (s pat : String) : Bool :=
  isPrefixL pat.data s.data

/-- Rust `s.ends_with(pat)`. -/
def rustEndsWith (s pat : String) : Bool :=
  isPrefixL pat.data.reverse s.data.reverse

/-- Rust `s.find(pat)`: index of the first occurrence of substring `pat`. -/
def findSubL (l pat : List Char) : Option Nat :=
  if isPrefixL pat l then some 0
  else
    match l with
    | [] => none
    | _ :: t => (findSubL t pat).map (· + 1)

/-- Rust `s.contains(pat)` for a substring pattern. -/
def containsSubL (l pat : List Char) : Bool :=
  (findSubL l pat).isSome

/-- Rust `s.rfind(c)`: index of the last occurrence of character `c`. -/
def rfindCharL : List Char → Char → Option Nat
  | [], _ => none
  | a :: as_, c =>
    match rfindCharL as_ c with
    | some i => some (i + 1)
    | none => if a = c then some 0 else none

/-- Rust slice `&s[a..b]`: `none` models the panic on `a > b` or `b > len`. -/
def rsliceL (l : List Char) (a b : Nat) : Option (List Char) :=
  if a ≤ b ∧ b ≤ l.length then some ((l.drop a).take (b - a)) else none

/-- Split a character list at every newline character (keeping empty pieces). -/
def splitNL : List Char → List (List Char)
  | [] => [[]]
  | c :: rest =>
    if c = '\n' then [] :: splitNL rest
    else
      match splitNL rest with
      | [] => [[c]]
      | h :: t => (c :: h) :: t

/-- Drop one trailing carriage return, as Rust `lines` does for `\r\n` endings. -/
def stripCR (l : List Char) : List Char :=
  if l.getLast? = some '\r' then l.dropLast else l

/-- Parts produced by `splitNL`: every part but the last was newline-terminated,
so its trailing `\r` is stripped; a final empty part is not a line. -/
def linesOfParts : List (List Char) → List (List Char)
  | [] => []
  | [last] => if last = [] then [] else [last]
  | p :: rest => stripCR p :: linesOfParts rest

/-- Rust `s.lines()`. -/
def rustLines (s : String) : List (List Char) :=
  linesOfParts (splitNL s.data)

/-! ## Data model (`modal.rs`) -/

/-- `DifficultTableCourseTrophy` (`modal.rs`); `f32` rates modelled as `Rat`. -/
structure DifficultTableCourseTrophy where
  name : String
  miss_rate : Rat
  score_rate : Rat
deriving DecidableEq, Repr

/-- `DifficultTableCourse` (`modal.rs`). -/
structure DifficultTableCourse where
  name : String
  constraints : List String
  trophy : List DifficultTableCourseTrophy
  md5 : List String
deriving DecidableEq, Repr

/-- `DifficultTableElement` (`modal.rs`). -/
structure DifficultTableElement where
  title : String
  artist : String
  md5 : String
  sha256 : String
  mode : String
  level : String
  diff_name : String
  comment : String
  info : String
  bms_id : String
deriving DecidableEq, Repr

/-- `DifficultTable` (`modal.rs`). -/
structure DifficultTable where
  name : String
  symbol : String
  last_update : String
  tag : String
  data_url : String
  data_rule : List String
  attr : String
  mode : String
  original_url : String
  contents : List DifficultTableElement
  levels : List String
  courses : List DifficultTableCourse
deriving DecidableEq, Repr

/-- `lift_serialize` (`modal.rs`): wrap the flat course list in one outer array. -/
def lift_serialize (x : List DifficultTableCourse) : List (List DifficultTableCourse) :=
  [x]

/-- `unlift_deserialize` (`modal.rs`): flatten the array-of-arrays of courses. -/
def unlift_deserialize (l : List (List DifficultTableCourse)) : List DifficultTableCourse :=
  l.flatten

/-! ## Wire documents and struct-level deserialization

`HeaderDoc`/`ElementDoc` model a parsed JSON object restricted to the keys the
serde derive in `modal.rs` knows; an `Option` field is `none` when the key is
absent from the document. -/

/-- Error produced by serde deserialization (`serde_json::Error` in the code). -/
inductive DeError where
  | missingField (field : String)
  | other (msg : String)
deriving DecidableEq, Repr

/-- Wire shape of the header JSON object. -/
structure HeaderDoc where
  name : Option String := none
  symbol : Option String := none
  last_update : Option String := none
  tag : Option String := none
  data_url : Option String := none
  data_rule : Option (List String) := none
  attr : Option String := none
  mode : Option String := none
  original_url : Option String := none
  course : Option (List (List DifficultTableCourse)) := none
deriving DecidableEq, Repr

/-- Wire shape of one content-document entry. -/
structure ElementDoc where
  title : Option String := none
  artist : Option String := none
  md5 : Option String := none
  sha256 : Option String := none
  mode : Option String := none
  level : Option String := none
  diff_name : Option String := none
  comment : Option String := none
  info : Option String := none
  bms_id : Option String := none
deriving DecidableEq, Repr

/-- Struct-level deserialization of `DifficultTable` per the serde attributes in
`modal.rs`: `name`, `symbol` required (first missing field, in declaration
order, errors); every `#[serde(default)]` field defaults; `contents`/`levels`
are `#[serde(skip_deserializing)]`; `course` is renamed and goes through
`unlift_deserialize`, defaulting to the empty list when absent. -/
def headerFromDoc (d : HeaderDoc) : Except DeError DifficultTable :=
  match d.name with
  | none => .error (.missingField "name")
  | some name =>
    match d.symbol with
    | none => .error (.missingField "symbol")
    | some symbol =>
      .ok { name := name
            symbol := symbol
            last_update := d.last_update.getD ""
            tag := d.tag.getD ""
            data_url := d.data_url.getD ""
            data_rule := d.data_rule.getD []
            attr := d.attr.getD ""
            mode := d.mode.getD ""
            original_url := d.original_url.getD ""
            contents := []
            levels := []
            courses := match d.course with
                       | none => []
                       | some ls => unlift_deserialize ls }

/-- Struct-level deserialization of `DifficultTableElement` per `modal.rs`:
`title`, `artist`, `md5`, `level` required (first missing in declaration order
errors); `comment` is `#[serde(skip)]`; the rest default to empty. -/
def elementFromDoc (d : ElementDoc) : Except DeError DifficultTableElement :=
  match d.title with
  | none => .error (.missingField "title")
  | some title =>
    match d.artist with
    | none => .error (.missingField "artist")
    | some artist =>
      match d.md5 with
      | none => .error (.missingField "md5")
      | some md5 =>
        match d.level with
        | none => .error (.missingField "level")
        | some level =>
          .ok { title := title
                artist := artist
                md5 := md5
                sha256 := d.sha256.getD ""
                mode := d.mode.getD ""
                level := level
                diff_name := d.diff_name.getD ""
                comment := ""
                info := d.info.getD ""
                bms_id := d.bms_id.getD "" }

/-- Deserialize a whole content document (`Vec<DifficultTableElement>`):
the first failing element fails the whole list. -/
def elementsFromDocs : List ElementDoc → Except DeError (List DifficultTableElement)
  | [] => .ok []
  | d :: ds =>
    match elementFromDoc d with
    | .error e => .error e
    | .ok x =>
      match elementsFromDocs ds with
      | .error e => .error e
      | .ok xs => .ok (x :: xs)

/-! ## `parser.rs` -/

/-- `ParseError` (`parser.rs`).  The transparent wrappers keep only the payload
relevant to the claims: the serde error, or an opaque message for the two
transport error sources. -/
inductive ParseError where
  | UnSupportedURLFormat
  | CorruptedHeaderData (detail : String)
  | SerdeError (e : DeError)
  | ReqwestError (e : String)
  | IOError (e : String)
deriving DecidableEq, Repr

/-- Value of a non-empty list of ASCII decimal digits; `none` otherwise. -/
def digitsToNat? : List Char → Option Nat
  | [] => none
  | [c] => if c.isDigit then some (c.toNat - '0'.toNat) else none
  | c :: rest =>
    if c.isDigit then
      match digitsToNat? rest with
      | none => none
      | some n => some ((c.toNat - '0'.toNat) * 10 ^ rest.length + n)
    else none

/-- Rust `s.parse::<i32>()`: optional sign, at least one ASCII digit, value in
the `i32` range (out-of-range input is a parse error, hence `none`). -/
def parseI32 (s : String) : Option Int :=
  let signed : Int × List Char :=
    match s.data with
    | '+' :: r => (1, r)
    | '-' :: r => (-1, r)
    | r => (1, r)
  match digitsToNat? signed.2 with
  | none => none
  | some n =>
    let v : Int := signed.1 * n
    if -2147483648 ≤ v ∧ v ≤ 2147483647 then some v else none

/-- Three-way comparison on `Int` (`Ord::cmp`). -/
def intCmp (a b : Int) : Ordering :=
  if a < b then .lt else if a = b then .eq else .gt

/-- Three-way comparison on character lists, modelling `Ord::cmp` on Rust
strings (byte-lexicographic, which agrees with codepoint-lexicographic). -/
def lexCmp : List Char → List Char → Ordering
  | [], [] => .eq
  | [], _ :: _ => .lt
  | _ :: _, [] => .gt
  | a :: as_, b :: bs =>
    if a.toNat < b.toNat then .lt
    else if b.toNat < a.toNat then .gt
    else lexCmp as_ bs

/-- The mixed level comparator of `parse_from_json` (`parser.rs` lines 66-73):
numeric when both sides parse as `i32`, string comparison otherwise. -/
def mixedCmp (lhs rhs : String) : Ordering :=
  match parseI32 lhs, parseI32 rhs with
  | some a, some b => intCmp a b
  | some _, none => lexCmp lhs.data rhs.data
  | none, _ => lexCmp lhs.data rhs.data

/-- `a` may stay before `b` in a stable sort by `mixedCmp`. -/
def mixedLe (a b : String) : Bool :=
  mixedCmp a b ≠ Ordering.gt

/-- `Itertools::unique`: keep the first occurrence of each distinct element,
tracked by the set of elements already seen. -/
def dedupFirstGo (seen : List String) : List String → List String
  | [] => []
  | x :: xs =>
    if x ∈ seen then dedupFirstGo seen xs
    else x :: dedupFirstGo (x :: seen) xs

/-- `Itertools::unique` with nothing seen yet. -/
def dedupFirst (l : List String) : List String :=
  dedupFirstGo [] l

/-- `Itertools::sorted_by`, a stable sort by the mixed comparator.  A stable
sort is modelled by insertion sort, which is stable; all stable sorts agree
whenever the comparator is a total preorder. -/
def sortLevels (l : List String) : List String :=
  List.insertionSort (fun a b => mixedLe a b = true) l

/-- The level-derivation pipeline of `parse_from_json` (`parser.rs` 61-74):
map to `level`, deduplicate keeping first occurrences, stably sort by the
mixed comparator. -/
def deriveLevels (contents : List DifficultTableElement) : List String :=
  sortLevels (dedupFirst (contents.map (fun c => c.level)))

/-- External collaborators: the blocking fetch (URL to body text, or a
transport error) and the text-level JSON parser of `serde_json` for the two
document shapes. -/
structure Env where
  fetch : String → Except String String
  decodeHeaderText : String → Except DeError HeaderDoc
  decodeContentText : String → Except DeError (List ElementDoc)

/-- `parse_from_json`, required-field checks (`parser.rs` lines 33-47). -/
def checkRequired (h : DifficultTable) : Except ParseError DifficultTable :=
  if h.name = "" then
    .error (.CorruptedHeaderData "Difficult table name cannot be empty")
  else if h.symbol = "" then
    .error (.CorruptedHeaderData "Difficult table symbol cannot be empty")
  else if h.data_url = "" then
    .error (.CorruptedHeaderData "Difficult table data_url cannot be empty")
  else .ok h

/-- `parse_from_json`, relative `data_url` resolution (`parser.rs` 48-56). -/
def resolveDataUrl (base_url : Option String) (h : DifficultTable) :
    Except ParseError DifficultTable :=
  if rustStartsWith h.data_url "http" then .ok h
  else
    match base_url with
    | none => .error (.CorruptedHeaderData
        "data_url is a relative path while no prefix url is provided")
    | some p =>
      let p := if rustEndsWith p "/" then p else p ++ "/"
      .ok { h with data_url := p ++ h.data_url }

/-- `parse_from_json`, content fetch, content deserialization and level
derivation (`parser.rs` 57-75). -/
def fetchContents (env : Env) (h : DifficultTable) :
    Except ParseError DifficultTable :=
  match env.fetch h.data_url with
  | .error e => .error (.ReqwestError e)
  | .ok body =>
    match env.decodeContentText body with
    | .error e => .error (.SerdeError e)
    | .ok docs =>
      match elementsFromDocs docs with
      | .error e => .error (.SerdeError e)
      | .ok contents =>
        .ok { h with contents := contents, levels := deriveLevels contents }

/-- `parse_from_json` after the text-level JSON parse: struct-level
deserialization, validation, resolution, content fetch. -/
def parseFromDoc (env : Env) (base_url : Option String) (d : HeaderDoc) :
    Except ParseError DifficultTable :=
  match headerFromDoc d with
  | .error e => .error (.SerdeError e)
  | .ok h =>
    match checkRequired h with
    | .error e => .error e
    | .ok h =>
      match resolveDataUrl base_url h with
      | .error e => .error e
      | .ok h => fetchContents env h

/-- `parse_from_json` (`parser.rs` 28-76). -/
def parse_from_json (env : Env) (base_url : Option String) (data : String) :
    Except ParseError DifficultTable :=
  match env.decodeHeaderText data with
  | .error e => .error (.SerdeError e)
  | .ok d => parseFromDoc env base_url d

/-! ## `lib.rs` -/

/-- The literal marker `<meta name="bmstable"` scanned for in HTML bodies. -/
def metaMarker : List Char := "<meta name=\"bmstable\"".data

/-- The literal `content=` attribute marker. -/
def contentAttr : List Char := "content=".data

/-- `parse` (`lib.rs` 20-65).  `none` models a panic; `some r` the returned
`Result`. -/
def parse (env : Env) (url : String) : Option (Except ParseError DifficultTable) :=
  if !rustStartsWith url "http" then some (.error .UnSupportedURLFormat)
  else if !rustEndsWith url ".json" && !rustEndsWith url ".htm"
          && !rustEndsWith url ".html" then
    some (.error .UnSupportedURLFormat)
  else
    match env.fetch url with
    | .error e => some (.error (.ReqwestError e))
    | .ok body =>
      if body = "" then
        some (.error (.CorruptedHeaderData ("Get nothing from " ++ url)))
      else if rustEndsWith url ".json" then
        match rfindCharL url.data '/' with
        | none => none
        | some i =>
          let base_url := String.mk (url.data.take (i + 1))
          some (parse_from_json env (some base_url) body)
      else
        match (rustLines body).find? (fun line => containsSubL line metaMarker) with
        | none => some (.error (.CorruptedHeaderData "Cannot fetch meta line"))
        | some meta_line =>
          match findSubL meta_line contentAttr with
          | none => some (.error (.CorruptedHeaderData "Cannot parse meta line"))
          | some pos =>
            let l := pos + "content=".length + 1
            let r := meta_line.length - 4
            match rfindCharL url.data '/' with
            | none => none
            | some i =>
              let base_url := String.mk (url.data.take (i + 1))
              match rsliceL meta_line l r with
              | none => none
              | some v =>
                let header_url := base_url ++ String.mk v
                match env.fetch header_url with
                | .error e => some (.error (.ReqwestError e))
                | .ok body2 => some (parse_from_json env (some base_url) body2)

/-! ## Concrete fixtures used by witnesses and examples -/

/-- A content entry whose only distinguishing field is its level label. -/
def elemWithLevel (s : String) : DifficultTableElement :=
  { title := "t", artist := "a", md5 := "m", sha256 := "", mode := "", level := s,
    diff_name := "", comment := "", info := "", bms_id := "" }

/-- A course whose only distinguishing field is its name. -/
def courseNamed (n : String) : DifficultTableCourse :=
  { name := n, constraints := [], trophy := [], md5 := [] }

/-- An environment in which every collaborator call fails. -/
def envStub : Env :=
  { fetch := fun _ => .error "stub"
    decodeHeaderText := fun _ => .error (.other "stub")
    decodeContentText := fun _ => .error (.other "stub") }

/-! ## Lemmas about the level-derivation pipeline -/

theorem mem_dedupFirstGo {y : String} :
    ∀ {l seen : List String}, y ∈ dedupFirstGo seen l ↔ y ∈ l ∧ y ∉ seen := by
  intro l
  induction l with
  | nil => intro seen; simp [dedupFirstGo]
  | cons x xs ih =>
    intro seen
    by_cases hx : x ∈ seen
    · simp only [dedupFirstGo, if_pos hx, ih, List.mem_cons]
      constructor
      · rintro ⟨hy, hns⟩; exact ⟨Or.inr hy, hns⟩
      · rintro ⟨hy | hy, hns⟩
        · exact absurd (hy ▸ hx) hns
        · exact ⟨hy, hns⟩
    · simp only [dedupFirstGo, if_neg hx, List.mem_cons, ih]
      constructor
      · rintro (rfl | ⟨hy, hns⟩)
        · exact ⟨Or.inl rfl, hx⟩
        · exact ⟨Or.inr hy, fun hc => hns (Or.inr hc)⟩
      · rintro ⟨rfl | hy, hns⟩
        · exact Or.inl rfl
        · by_cases hyx : y = x
          · exact Or.inl hyx
          · exact Or.inr ⟨hy, fun hc => hc.elim hyx hns⟩

theorem nodup_dedupFirstGo :
    ∀ {l seen : List String}, (dedupFirstGo seen l).Nodup := by
  intro l
  induction l with
  | nil => intro seen; simp [dedupFirstGo]
  | cons x xs ih =>
    intro seen
    by_cases hx : x ∈ seen
    · simpa [dedupFirstGo, if_pos hx] using ih
    · have hrw : dedupFirstGo seen (x :: xs) = x :: dedupFirstGo (x :: seen) xs := by
        simp [dedupFirstGo, hx]
      rw [hrw]
      refine List.Nodup.cons ?_ ih
      intro hc
      exact (mem_dedupFirstGo.mp hc).2 (List.mem_cons_self _ _)

theorem dedupFirst_mem (l : List String) (y : String) :
    y ∈ dedupFirst l ↔ y ∈ l := by
  simp [dedupFirst, mem_dedupFirstGo]

theorem dedupFirst_nodup (l : List String) : (dedupFirst l).Nodup :=
  nodup_dedupFirstGo

theorem sortLevels_perm (l : List String) : (sortLevels l).Perm l :=
  List.perm_insertionSort _ l

theorem deriveLevels_mem (cs : List DifficultTableElement) (s : String) :
    s ∈ deriveLevels cs ↔ s ∈ cs.map (fun c => c.level) := by
  rw [deriveLevels, (sortLevels_perm _).mem_iff, dedupFirst_mem]

theorem deriveLevels_nodup (cs : List DifficultTableElement) :
    (deriveLevels cs).Nodup :=
  ((sortLevels_perm _).nodup_iff).mpr (dedupFirst_nodup _)

theorem deriveLevels_eq_nil_iff (cs : List DifficultTableElement) :
    deriveLevels cs = [] ↔ cs = [] := by
  constructor
  · intro h
    cases cs with
    | nil => rfl
    | cons c cs' =>
      exfalso
      have hm : c.level ∈ deriveLevels (c :: cs') := by
        rw [deriveLevels_mem]; simp
      rw [h] at hm
      exact List.not_mem_nil _ hm
  · rintro rfl; rfl

/-- C1: the derived levels list is the level labels of the content list,
deduplicated by exact string equality (each distinct label once; membership is
preserved) and stably sorted with the mixed numeric-else-string comparator; on
the sample levels `["3","1","10","2"]` it is `["1","2","3","10"]`, on
`["1","a","2"]` it is `["1","2","a"]`, and duplicates collapse.  The last two
conjuncts record the comparator being numeric on two numeric labels (where
plain lexicographic order would differ) and lexicographic otherwise. -/
theorem C1_level_derivation :
    (∀ cs : List DifficultTableElement,
        deriveLevels cs = sortLevels (dedupFirst (cs.map (fun c => c.level)))
        ∧ (deriveLevels cs).Nodup
        ∧ (∀ s, s ∈ deriveLevels cs ↔ s ∈ cs.map (fun c => c.level)))
    ∧ deriveLevels [elemWithLevel "3", elemWithLevel "1", elemWithLevel "10", elemWithLevel "2"]
        = ["1", "2", "3", "10"]
    ∧ deriveLevels [elemWithLevel "1", elemWithLevel "a", elemWithLevel "2"]
        = ["1", "2", "a"]
    ∧ deriveLevels [elemWithLevel "5", elemWithLevel "5", elemWithLevel "1"]
        = ["1", "5"]
    ∧ mixedCmp "10" "2" = .gt ∧ lexCmp "10".data "2".data = .lt
    ∧ mixedCmp "a" "10" = .gt := by
  refine ⟨fun cs => ⟨rfl, deriveLevels_nodup cs, deriveLevels_mem cs⟩,
    by decide, by decide, by decide, by decide, by decide, by decide⟩

/-- C3: `unlift_deserialize` flattens every inner array (shown both in general
as `List.flatten`, which preserves relative order, and on a two-group input),
an absent `course` field deserializes to the empty list rather than an error,
`lift_serialize` wraps the flat list in exactly one outer array, and the
serialize-then-deserialize round trip is the identity on flat course lists. -/
theorem C3_course_round_trip :
    (∀ x, lift_serialize x = [x])
    ∧ (∀ ls, unlift_deserialize ls = ls.flatten)
    ∧ (∀ x, unlift_deserialize (lift_serialize x) = x)
    ∧ unlift_deserialize [[courseNamed "a", courseNamed "b"], [courseNamed "c"]]
        = [courseNamed "a", courseNamed "b", courseNamed "c"]
    ∧ (∀ (d : HeaderDoc) (t : DifficultTable),
        d.course = none → headerFromDoc d = .ok t → t.courses = []) := by
  refine ⟨fun _ => rfl, fun _ => rfl, fun x => by simp [lift_serialize, unlift_deserialize],
    rfl, ?_⟩
  intro d t hc ht
  cases hn : d.name with
  | none => simp [headerFromDoc, hn] at ht
  | some nm =>
    cases hs : d.symbol with
    | none => simp [headerFromDoc, hn, hs] at ht
    | some sy =>
      simp only [headerFromDoc, hn, hs, hc, Except.ok.injEq] at ht
      subst ht
      rfl

/-- Closed witness for the hypothesised conjunct of `C3_course_round_trip`:
a header document with no `course` key yields a table with empty courses. -/
theorem C3_course_round_trip_witness :
    ∃ t : DifficultTable,
      headerFromDoc { name := some "n", symbol := some "s" } = .ok t
      ∧ t.courses = [] := by
  refine ⟨{ name := "n", symbol := "s", last_update := "", tag := "", data_url := "",
            data_rule := [], attr := "", mode := "", original_url := "",
            contents := [], levels := [], courses := [] }, rfl, ?_⟩
  exact C3_course_round_trip.2.2.2.2 { name := some "n", symbol := some "s" } _ rfl rfl

/-- C5: a URL not starting with the HTTP scheme, or not ending with one of the
case-sensitive suffixes `.json`, `.htm`, `.html`, makes `parse` fail with
`UnSupportedURLFormat`; the result is the same for every environment, so no
fetch is consulted. -/
theorem C5_url_classification (env : Env) (url : String)
    (h : rustStartsWith url "http" = false
        ∨ (rustEndsWith url ".json" = false ∧ rustEndsWith url ".htm" = false
            ∧ rustEndsWith url ".html" = false)) :
    parse env url = some (.error .UnSupportedURLFormat) := by
  rcases h with h1 | ⟨h2, h3, h4⟩
  · simp [parse, h1]
  · by_cases hs : rustStartsWith url "http" <;> simp [parse, hs, h2, h3, h4]

/-- Closed witness for `C5_url_classification` at `"ftp://satellite.json"` and
`"http://zris.work/bmstable/satellite/header"`. -/
theorem C5_url_classification_witness :
    parse envStub "ftp://satellite.json" = some (.error .UnSupportedURLFormat)
    ∧ parse envStub "http://zris.work/bmstable/satellite/header"
        = some (.error .UnSupportedURLFormat) :=
  ⟨C5_url_classification envStub _ (Or.inl (by decide)),
   C5_url_classification envStub _ (Or.inr (by decide))⟩

/-! ## C4: relative `data_url` resolution -/

/-- Drop every trailing `'/'`. -/
def dropTrailingSlashes (l : List Char) : List Char :=
  (l.reverse.dropWhile (fun c => c = '/')).reverse

/-- Base normalization following the spec's words for C4: "the base is
normalized to end with exactly one trailing `/`".  Written from the claim, not
from the source, to be compared with `resolveDataUrl`. -/
def specNormalizeBase (b : String) : String :=
  String.mk (dropTrailingSlashes b.data ++ ['/'])

/-- A validated header whose `data_url` is the relative path `"z.json"`. -/
def hdrRelZ : DifficultTable :=
  { name := "n", symbol := "s", last_update := "", tag := "", data_url := "z.json",
    data_rule := [], attr := "", mode := "", original_url := "",
    contents := [], levels := [], courses := [] }

/-- A header document whose `data_url` is the relative path `"z.json"`. -/
def docRelZ : HeaderDoc :=
  { name := some "n", symbol := some "s", data_url := some "z.json" }

/-- C4 counterexample: for the base `"https://x//"` the code leaves the base
unchanged (it already ends with `'/'`) and resolves to `"https://x//z.json"`,
whereas a base normalized to end with exactly one trailing `'/'` would give
`"https://x/z.json"`; the two differ, so the claim fails at this input. -/
theorem C4_base_normalization_counterexample :
    resolveDataUrl (some "https://x//") hdrRelZ
        = .ok { hdrRelZ with data_url := "https://x//z.json" }
    ∧ specNormalizeBase "https://x//" = "https://x/"
    ∧ specNormalizeBase "https://x//" ++ hdrRelZ.data_url = "https://x/z.json"
    ∧ ("https://x//z.json" : String) ≠ "https://x/z.json" :=
  ⟨rfl, rfl, rfl, by decide⟩

/-- C4 amended: for a validated header whose `data_url` does not start with
`"http"`, resolution without a base fails with the exact
`CorruptedHeaderData` message (also end to end from a header document); with a
base, `'/'` is appended only when the base does not already end with `'/'`
(a base already ending in one or more slashes is used unchanged) and the
resolved `data_url` is the concatenation; base `"https://x/y/"` with relative
`"z.json"` resolves to exactly `"https://x/y/z.json"`. -/
theorem C4_relative_resolution_amended (h : DifficultTable) (p : String)
    (hrel : rustStartsWith h.data_url "http" = false) :
    resolveDataUrl none h = .error (.CorruptedHeaderData
        "data_url is a relative path while no prefix url is provided")
    ∧ resolveDataUrl (some p) h
        = .ok { h with data_url := (if rustEndsWith p "/" then p else p ++ "/") ++ h.data_url }
    ∧ (rustEndsWith p "/" = false →
        resolveDataUrl (some p) h = .ok { h with data_url := (p ++ "/") ++ h.data_url })
    ∧ parseFromDoc envStub none docRelZ = .error (.CorruptedHeaderData
        "data_url is a relative path while no prefix url is provided")
    ∧ resolveDataUrl (some "https://x/y/") hdrRelZ
        = .ok { hdrRelZ with data_url := "https://x/y/z.json" } := by
  refine ⟨by simp [resolveDataUrl, hrel], by simp [resolveDataUrl, hrel], ?_, rfl, rfl⟩
  intro hp
  simp [resolveDataUrl, hrel, hp]

/-- Closed witness for `C4_relative_resolution_amended` at `hdrRelZ` and the
base `"https://x/y"` (no trailing slash, so one is appended). -/
theorem C4_relative_resolution_witness :
    resolveDataUrl none hdrRelZ = .error (.CorruptedHeaderData
        "data_url is a relative path while no prefix url is provided")
    ∧ resolveDataUrl (some "https://x/y") hdrRelZ
        = .ok { hdrRelZ with data_url := ("https://x/y" ++ "/") ++ hdrRelZ.data_url } :=
  ⟨(C4_relative_resolution_amended hdrRelZ "https://x/y" (by decide)).1,
   (C4_relative_resolution_amended hdrRelZ "https://x/y" (by decide)).2.2.1 (by decide)⟩

/-! ## C2: required header fields -/

/-- A header document with no `name` key (other required data present). -/
def docMissingName : HeaderDoc :=
  { symbol := some "S", data_url := some "http://a/d.json" }

/-- C2 counterexample: a header document missing `name` fails with a
deserialization error (`SerdeError`, from the serde missing-field check),
not with `CorruptedHeaderData` as the claim states. -/
theorem C2_required_fields_counterexample :
    parseFromDoc envStub none docMissingName
        = .error (.SerdeError (.missingField "name")) := rfl

/-- C2 amended: a header document missing `name` or `symbol` fails with a
deserialization error naming that field (`data_url` is `#[serde(default)]`, so
a missing `data_url` deserializes to the empty string); any of the three
fields present but empty fails with `CorruptedHeaderData` naming the field;
the validation step succeeds exactly when all three are non-empty. -/
theorem C2_required_fields_amended (env : Env) (p : Option String) (d : HeaderDoc) :
    (d.name = none →
        parseFromDoc env p d = .error (.SerdeError (.missingField "name")))
    ∧ (∀ n, d.name = some n → d.symbol = none →
        parseFromDoc env p d = .error (.SerdeError (.missingField "symbol")))
    ∧ (∀ s, d.name = some "" → d.symbol = some s →
        parseFromDoc env p d
          = .error (.CorruptedHeaderData "Difficult table name cannot be empty"))
    ∧ (∀ n, d.name = some n → n ≠ "" → d.symbol = some "" →
        parseFromDoc env p d
          = .error (.CorruptedHeaderData "Difficult table symbol cannot be empty"))
    ∧ (∀ n s, d.name = some n → n ≠ "" → d.symbol = some s → s ≠ "" →
        d.data_url.getD "" = "" →
        parseFromDoc env p d
          = .error (.CorruptedHeaderData "Difficult table data_url cannot be empty"))
    ∧ (∀ t : DifficultTable, t.name ≠ "" → t.symbol ≠ "" → t.data_url ≠ "" →
        checkRequired t = .ok t) := by
  refine ⟨?_, ?_, ?_, ?_, ?_, ?_⟩
  · intro hn; simp [parseFromDoc, headerFromDoc, hn]
  · intro n hn hs; simp [parseFromDoc, headerFromDoc, hn, hs]
  · intro s hn hs; simp [parseFromDoc, headerFromDoc, hn, hs, checkRequired]
  · intro n hn hne hs; simp [parseFromDoc, headerFromDoc, hn, hs, checkRequired, hne]
  · intro n s hn hne hs hse hd
    simp [parseFromDoc, headerFromDoc, hn, hs, checkRequired, hne, hse, hd]
  · intro t h1 h2 h3; simp [checkRequired, h1, h2, h3]

/-- Closed witness for `C2_required_fields_amended`: a document with `name`
present but `symbol` missing fails with the serde missing-field error, and the
validation step passes a fully populated header unchanged. -/
theorem C2_required_fields_witness :
    parseFromDoc envStub none { name := some "N" }
        = .error (.SerdeError (.missingField "symbol"))
    ∧ checkRequired hdrRelZ = .ok hdrRelZ :=
  ⟨(C2_required_fields_amended envStub none { name := some "N" }).2.1 "N" rfl rfl,
   (C2_required_fields_amended envStub none { name := some "N" }).2.2.2.2.2 hdrRelZ
     (by decide) (by decide) (by decide)⟩

/-! ## Path lemmas for `parse` -/

theorem parseJsonPath (env : Env) (url body : String) (i : Nat)
    (h1 : rustStartsWith url "http" = true)
    (h2 : rustEndsWith url ".json" = true)
    (hf : env.fetch url = .ok body) (hb : body ≠ "")
    (hi : rfindCharL url.data '/' = some i) :
    parse env url
      = some (parse_from_json env (some (String.mk (url.data.take (i + 1)))) body) := by
  simp [parse, h1, h2, hf, hb, hi]

theorem parseHtmlNoMeta (env : Env) (url body : String)
    (h1 : rustStartsWith url "http" = true)
    (h2 : rustEndsWith url ".json" = false)
    (h3 : rustEndsWith url ".htm" = true ∨ rustEndsWith url ".html" = true)
    (hf : env.fetch url = .ok body) (hb : body ≠ "")
    (hnl : (rustLines body).find? (fun l => containsSubL l metaMarker) = none) :
    parse env url = some (.error (.CorruptedHeaderData "Cannot fetch meta line")) := by
  rcases h3 with h3 | h3 <;> simp [parse, h1, h2, h3, hf, hb, hnl]

theorem parseHtmlNoContent (env : Env) (url body : String) (line : List Char)
    (h1 : rustStartsWith url "http" = true)
    (h2 : rustEndsWith url ".json" = false)
    (h3 : rustEndsWith url ".htm" = true ∨ rustEndsWith url ".html" = true)
    (hf : env.fetch url = .ok body) (hb : body ≠ "")
    (hline : (rustLines body).find? (fun l => containsSubL l metaMarker) = some line)
    (hpos : findSubL line contentAttr = none) :
    parse env url = some (.error (.CorruptedHeaderData "Cannot parse meta line")) := by
  rcases h3 with h3 | h3 <;> simp [parse, h1, h2, h3, hf, hb, hline, hpos]

theorem parseHtmlPath (env : Env) (url body : String) (line : List Char)
    (pos i : Nat) (v : List Char)
    (h1 : rustStartsWith url "http" = true)
    (h2 : rustEndsWith url ".json" = false)
    (h3 : rustEndsWith url ".htm" = true ∨ rustEndsWith url ".html" = true)
    (hf : env.fetch url = .ok body) (hb : body ≠ "")
    (hline : (rustLines body).find? (fun l => containsSubL l metaMarker) = some line)
    (hpos : findSubL line contentAttr = some pos)
    (hi : rfindCharL url.data '/' = some i)
    (hv : rsliceL line (pos + "content=".length + 1) (line.length - 4) = some v) :
    parse env url
      = some (match env.fetch (String.mk (url.data.take (i + 1)) ++ String.mk v) with
              | .error e => .error (.ReqwestError e)
              | .ok body2 =>
                  parse_from_json env (some (String.mk (url.data.take (i + 1)))) body2) := by
  rcases h3 with h3 | h3 <;> simp [parse, h1, h2, h3, hf, hb, hline, hpos, hi, hv] <;>
    cases env.fetch (String.mk (url.data.take (i + 1)) ++ String.mk v) <;> rfl

/-! ## C7: HTML pointer extraction failure modes -/

/-- C7: in the HTML-indirection path, when no line of the body contains the
literal `<meta name="bmstable"`, `parse` fails with
`CorruptedHeaderData("Cannot fetch meta line")`; when the (first) such line
exists but does not contain `content=`, it fails with
`CorruptedHeaderData("Cannot parse meta line")`. -/
theorem C7_meta_line_errors (env : Env) (url body : String)
    (h1 : rustStartsWith url "http" = true)
    (h2 : rustEndsWith url ".json" = false)
    (h3 : rustEndsWith url ".htm" = true ∨ rustEndsWith url ".html" = true)
    (hf : env.fetch url = .ok body) (hb : body ≠ "") :
    ((rustLines body).find? (fun l => containsSubL l metaMarker) = none →
        parse env url = some (.error (.CorruptedHeaderData "Cannot fetch meta line")))
    ∧ (∀ line, (rustLines body).find? (fun l => containsSubL l metaMarker) = some line →
        containsSubL line contentAttr = false →
        parse env url = some (.error (.CorruptedHeaderData "Cannot parse meta line"))) := by
  refine ⟨fun hnl => parseHtmlNoMeta env url body h1 h2 h3 hf hb hnl, ?_⟩
  intro line hline hcon
  refine parseHtmlNoContent env url body line h1 h2 h3 hf hb hline ?_
  cases hfs : findSubL line contentAttr with
  | none => rfl
  | some p => rw [containsSubL, hfs] at hcon; simp at hcon

/-- Environment for the C7 witness: an HTML page with no bmstable meta line,
and one whose meta line has no `content=` attribute. -/
def envC7 : Env :=
  { fetch := fun u =>
      if u = "http://a/t.html" then .ok "hello\nworld"
      else if u = "http://a/u.html" then .ok "<meta name=\"bmstable\" here>"
      else .error "no route"
    decodeHeaderText := fun _ => .error (.other "unused")
    decodeContentText := fun _ => .error (.other "unused") }

/-- Closed witness for `C7_meta_line_errors` on two concrete HTML bodies. -/
theorem C7_meta_line_errors_witness :
    parse envC7 "http://a/t.html"
        = some (.error (.CorruptedHeaderData "Cannot fetch meta line"))
    ∧ parse envC7 "http://a/u.html"
        = some (.error (.CorruptedHeaderData "Cannot parse meta line")) :=
  ⟨(C7_meta_line_errors envC7 "http://a/t.html" "hello\nworld"
      (by decide) (by decide) (Or.inr (by decide)) rfl (by decide)).1 (by decide),
   (C7_meta_line_errors envC7 "http://a/u.html" "<meta name=\"bmstable\" here>"
      (by decide) (by decide) (Or.inr (by decide)) rfl (by decide)).2
      "<meta name=\"bmstable\" here>".data (by decide) (by decide)⟩

/-! ## C8: HTML pointer base resolution -/

/-- Environment for C8: the HTML page's meta pointer is the *absolute* URL
`http://b/h.json`.  Fetching the base-prepended concatenation succeeds and
leads to a full table; fetching the absolute pointer as-is is made to fail, so
the two candidate behaviours are observably distinct. -/
def envC8 : Env :=
  { fetch := fun u =>
      if u = "http://a/t.html" then
        .ok "<meta name=\"bmstable\" content=\"http://b/h.json\" />"
      else if u = "http://a/http://b/h.json" then .ok "HDR"
      else if u = "http://b/h.json" then .error "claim expects this URL fetched as-is"
      else if u = "http://c/d.json" then .ok "BODY"
      else .error "no route"
    decodeHeaderText := fun s =>
      if s = "HDR" then
        .ok { name := some "reached-via-base-concat", symbol := some "S",
              data_url := some "http://c/d.json" }
      else .error (.other "bad json")
    decodeContentText := fun s =>
      if s = "BODY" then
        .ok [{ title := some "t", artist := some "a", md5 := some "m", level := some "1" }]
      else .error (.other "bad json") }

/-- The table produced by `parse envC8 "http://a/t.html"`. -/
def tblC8 : DifficultTable :=
  { name := "reached-via-base-concat", symbol := "S", last_update := "", tag := "",
    data_url := "http://c/d.json", data_rule := [], attr := "", mode := "",
    original_url := "", contents := [elemWithLevel "1"], levels := ["1"], courses := [] }

/-- C8 counterexample: the `content` value is the absolute URL
`http://b/h.json`, yet the run succeeds via the header fetched from the
base-prepended `http://a/http://b/h.json` (reaching the table named
`reached-via-base-concat`), while fetching the absolute pointer as-is fails in
this environment — so the absolute value is *not* used as the header-document
URL as-is, refuting the claim. -/
theorem C8_pointer_base_counterexample :
    envC8.fetch "http://b/h.json" = .error "claim expects this URL fetched as-is"
    ∧ envC8.fetch "http://a/http://b/h.json" = .ok "HDR"
    ∧ parse envC8 "http://a/t.html" = some (.ok tblC8) :=
  ⟨rfl, rfl, rfl⟩

/-- C8 amended: the extracted `content` value is *always* appended to the HTML
page's base path (the entry URL truncated after its last `'/'`), whether or
not the value is absolute; the header document is then fetched from that
concatenation. -/
theorem C8_pointer_base_amended (env : Env) (url body : String) (line : List Char)
    (pos i : Nat) (v : List Char)
    (h1 : rustStartsWith url "http" = true)
    (h2 : rustEndsWith url ".json" = false)
    (h3 : rustEndsWith url ".htm" = true ∨ rustEndsWith url ".html" = true)
    (hf : env.fetch url = .ok body) (hb : body ≠ "")
    (hline : (rustLines body).find? (fun l => containsSubL l metaMarker) = some line)
    (hpos : findSubL line contentAttr = some pos)
    (hi : rfindCharL url.data '/' = some i)
    (hv : rsliceL line (pos + "content=".length + 1) (line.length - 4) = some v) :
    parse env url
      = some (match env.fetch (String.mk (url.data.take (i + 1)) ++ String.mk v) with
              | .error e => .error (.ReqwestError e)
              | .ok body2 =>
                  parse_from_json env (some (String.mk (url.data.take (i + 1)))) body2) :=
  parseHtmlPath env url body line pos i v h1 h2 h3 hf hb hline hpos hi hv

/-- Closed witness for `C8_pointer_base_amended` at the concrete environment
`envC8`: the fetched header URL is the concatenation of the base
`"http://a/"` with the absolute pointer value. -/
theorem C8_pointer_base_witness :
    parse envC8 "http://a/t.html"
      = some (match envC8.fetch (String.mk ("http://a/t.html".data.take (8 + 1))
                  ++ String.mk "http://b/h.json".data) with
              | .error e => .error (.ReqwestError e)
              | .ok body2 =>
                  parse_from_json envC8
                    (some (String.mk ("http://a/t.html".data.take (8 + 1)))) body2) :=
  C8_pointer_base_amended envC8 "http://a/t.html"
    "<meta name=\"bmstable\" content=\"http://b/h.json\" />"
    "<meta name=\"bmstable\" content=\"http://b/h.json\" />".data 22 8
    "http://b/h.json".data
    (by decide) (by decide) (Or.inr (by decide)) rfl (by decide)
    (by decide) (by decide) (by decide) (by decide)

/-! ## C9: empty header body -/

/-- Environment for C9: the HTML page carries a valid bmstable pointer, but
fetching the pointed-to header document returns an empty body. -/
def env9 : Env :=
  { fetch := fun u =>
      if u = "http://a/t.html" then .ok "<meta name=\"bmstable\" content=\"h.json\" />"
      else if u = "http://a/h.json" then .ok ""
      else .error "no route"
    decodeHeaderText := fun s =>
      if s = "" then .error (.other "EOF while parsing a value")
      else .error (.other "bad json")
    decodeContentText := fun _ => .error (.other "bad json") }

/-- C9 counterexample: in the HTML-indirection path an empty header-document
body does *not* produce `CorruptedHeaderData("Get nothing from <url>")` — the
empty string flows into JSON deserialization and the run fails with a
`SerdeError` instead (the emptiness check guards only the first fetch, of the
entry URL itself). -/
theorem C9_empty_header_counterexample :
    env9.fetch "http://a/h.json" = .ok ""
    ∧ parse env9 "http://a/t.html"
        = some (.error (.SerdeError (.other "EOF while parsing a value")))
    ∧ (some (.error (.SerdeError (.other "EOF while parsing a value")))
        : Option (Except ParseError DifficultTable))
      ≠ some (.error (.CorruptedHeaderData ("Get nothing from " ++ "http://a/h.json"))) :=
  ⟨rfl, rfl, by simp⟩

/-- C9 amended: an empty body of the *first* fetch — the entry URL itself,
which in the direct-JSON path is the header-document pointer — fails with
`CorruptedHeaderData("Get nothing from <url>")` naming that URL; in the
HTML-indirection path the emptiness check applies only to the HTML page, and
an empty header-document body is handed to JSON deserialization, surfacing as
a deserialization error. -/
theorem C9_empty_header_body_amended :
    (∀ (env : Env) (url : String), rustStartsWith url "http" = true →
        (rustEndsWith url ".json" = true ∨ rustEndsWith url ".htm" = true
          ∨ rustEndsWith url ".html" = true) →
        env.fetch url = .ok "" →
        parse env url = some (.error (.CorruptedHeaderData ("Get nothing from " ++ url))))
    ∧ (∀ (env : Env) (url body : String) (line : List Char) (pos i : Nat)
        (v : List Char) (e : DeError),
        rustStartsWith url "http" = true →
        rustEndsWith url ".json" = false →
        (rustEndsWith url ".htm" = true ∨ rustEndsWith url ".html" = true) →
        env.fetch url = .ok body → body ≠ "" →
        (rustLines body).find? (fun l => containsSubL l metaMarker) = some line →
        findSubL line contentAttr = some pos →
        rfindCharL url.data '/' = some i →
        rsliceL line (pos + "content=".length + 1) (line.length - 4) = some v →
        env.fetch (String.mk (url.data.take (i + 1)) ++ String.mk v) = .ok "" →
        env.decodeHeaderText "" = .error e →
        parse env url = some (.error (.SerdeError e))) := by
  constructor
  · intro env url h1 hsuf hf
    rcases hsuf with h | h | h <;> simp [parse, h1, h, hf]
  · intro env url body line pos i v e h1 h2 h3 hf hb hline hpos hi hv hfh hdec
    rw [parseHtmlPath env url body line pos i v h1 h2 h3 hf hb hline hpos hi hv, hfh]
    simp [parse_from_json, hdec]

/-- Closed witness for `C9_empty_header_body_amended`: the direct-JSON path
with an empty body names the entry URL, and an HTML run whose header fetch
returns the empty body surfaces the deserialization error. -/
theorem C9_empty_header_body_witness :
    parse env9 "http://a/h.json"
      = some (.error (.CorruptedHeaderData ("Get nothing from " ++ "http://a/h.json")))
    ∧ parse env9 "http://a/t.html"
      = some (.error (.SerdeError (.other "EOF while parsing a value"))) :=
  ⟨C9_empty_header_body_amended.1 env9 "http://a/h.json" (by decide) (Or.inl (by decide)) rfl,
   C9_empty_header_body_amended.2 env9 "http://a/t.html"
      "<meta name=\"bmstable\" content=\"h.json\" />"
      "<meta name=\"bmstable\" content=\"h.json\" />".data 22 8 "h.json".data
      (.other "EOF while parsing a value")
      (by decide) (by decide) (Or.inr (by decide)) rfl (by decide)
      (by decide) (by decide) (by decide) (by decide) rfl rfl⟩

/-! ## Success-path inversion lemmas -/

theorem fetchContents_ok_levels (env : Env) (h t : DifficultTable)
    (hp : fetchContents env h = .ok t) : t.levels = deriveLevels t.contents := by
  unfold fetchContents at hp
  repeat' split at hp
  all_goals first
    | (simp only [Except.ok.injEq] at hp; subst hp; rfl)
    | simp at hp

theorem parseFromDoc_ok_levels (env : Env) (p : Option String) (d : HeaderDoc)
    (t : DifficultTable) (hp : parseFromDoc env p d = .ok t) :
    t.levels = deriveLevels t.contents := by
  unfold parseFromDoc at hp
  repeat' split at hp
  all_goals first
    | exact fetchContents_ok_levels _ _ _ hp
    | simp at hp

theorem parse_from_json_ok_levels (env : Env) (p : Option String) (data : String)
    (t : DifficultTable) (hp : parse_from_json env p data = .ok t) :
    t.levels = deriveLevels t.contents := by
  unfold parse_from_json at hp
  repeat' split at hp
  all_goals first
    | exact parseFromDoc_ok_levels _ _ _ _ hp
    | simp at hp

theorem parse_ok_levels (env : Env) (url : String) (t : DifficultTable)
    (hp : parse env url = some (.ok t)) : t.levels = deriveLevels t.contents := by
  unfold parse at hp
  repeat'
    first
      | exact parse_from_json_ok_levels _ _ _ _ hp
      | exact parse_from_json_ok_levels _ _ _ _ (Option.some.inj hp)
      | simp at hp
      | split at hp

/-! ## C6: contents/levels invariant -/

/-- Environment for the C6 witness: a complete, successful direct-JSON run. -/
def envJson : Env :=
  { fetch := fun u =>
      if u = "http://a/h.json" then .ok "HDR"
      else if u = "http://a/d.json" then .ok "BODY"
      else .error "no route"
    decodeHeaderText := fun s =>
      if s = "HDR" then
        .ok { name := some "T", symbol := some "S", data_url := some "http://a/d.json" }
      else .error (.other "bad json")
    decodeContentText := fun s =>
      if s = "BODY" then
        .ok [{ title := some "t", artist := some "a", md5 := some "m", level := some "3" },
             { title := some "t", artist := some "a", md5 := some "m", level := some "1" },
             { title := some "t", artist := some "a", md5 := some "m", level := some "10" },
             { title := some "t", artist := some "a", md5 := some "m", level := some "2" }]
      else .error (.other "bad json") }

/-- The table produced by `parse envJson "http://a/h.json"`. -/
def tblJson : DifficultTable :=
  { name := "T", symbol := "S", last_update := "", tag := "",
    data_url := "http://a/d.json", data_rule := [], attr := "", mode := "",
    original_url := "",
    contents := [elemWithLevel "3", elemWithLevel "1", elemWithLevel "10", elemWithLevel "2"],
    levels := ["1", "2", "3", "10"], courses := [] }

/-- C6: every table returned successfully by the pipeline has non-empty
`contents` exactly when it has non-empty `levels`; an empty fetched content
list yields an empty level list with no error raised in the level-derivation
step. -/
theorem C6_contents_levels_invariant :
    (∀ (env : Env) (url : String) (t : DifficultTable),
        parse env url = some (.ok t) → (t.contents ≠ [] ↔ t.levels ≠ []))
    ∧ deriveLevels [] = []
    ∧ (∀ (env : Env) (h : DifficultTable) (body : String),
        env.fetch h.data_url = .ok body → env.decodeContentText body = .ok [] →
        fetchContents env h = .ok { h with contents := [], levels := [] }) := by
  refine ⟨?_, rfl, ?_⟩
  · intro env url t hp
    rw [parse_ok_levels env url t hp]
    exact (not_congr (deriveLevels_eq_nil_iff t.contents)).symm
  · intro env h body hf hd
    simp only [fetchContents, hf, hd, elementsFromDocs]
    rfl

/-- Closed witness for `C6_contents_levels_invariant`: a concrete successful
run, on which the invariant is instantiated. -/
theorem C6_contents_levels_witness :
    parse envJson "http://a/h.json" = some (.ok tblJson)
    ∧ (tblJson.contents ≠ [] ↔ tblJson.levels ≠ [])
    ∧ fetchContents { envJson with decodeContentText := fun _ => .ok [] } tblJson
        = .ok { tblJson with contents := [], levels := [] } :=
  ⟨rfl,
   C6_contents_levels_invariant.1 envJson "http://a/h.json" tblJson rfl,
   C6_contents_levels_invariant.2.2 { envJson with decodeContentText := fun _ => .ok [] }
     tblJson "BODY" rfl rfl⟩

/-! ## C10: totality of `parse` -/

theorem rfindCharL_isSome_of_mem {c : Char} :
    ∀ {l : List Char}, c ∈ l → (rfindCharL l c).isSome := by
  intro l
  induction l with
  | nil => intro h; cases h
  | cons a as ih =>
    intro h
    simp only [rfindCharL]
    cases hr : rfindCharL as c with
    | some i => simp
    | none =>
      rcases List.mem_cons.mp h with rfl | hm
      · simp
      · have hs := ih hm
        rw [hr] at hs
        simp at hs

/-- An environment whose fetch returns the non-empty body `"x"` for every URL. -/
def envAnyBody : Env :=
  { fetch := fun _ => .ok "x"
    decodeHeaderText := fun _ => .error (.other "unused")
    decodeContentText := fun _ => .error (.other "unused") }

/-- C10 counterexample: the URL `"http:a.json"` passes both of the entry
checks (it starts with `"http"` and ends with `".json"`) and contains no
`'/'`, so once the fetch collaborator returns a non-empty body,
`url.rfind('/').unwrap()` panics — `parse` does not return a `Result`. -/
theorem C10_totality_counterexample :
    rustStartsWith "http:a.json" "http" = true
    ∧ rustEndsWith "http:a.json" ".json" = true
    ∧ envAnyBody.fetch "http:a.json" = .ok "x"
    ∧ parse envAnyBody "http:a.json" = none :=
  ⟨by decide, by decide, rfl, rfl⟩

/-- C10 amended: `parse` always terminates, and it returns a `Result` (does
not panic) provided the entry URL contains a `'/'` (needed by both uses of
`url.rfind('/').unwrap()`) and, in the HTML path, the matched meta line's
`content=` position satisfies `pos + 9 ≤ line.len() - 4`, keeping the fixed
slice `meta_line[pos+9 .. len-4]` non-reversed and in bounds. -/
theorem C10_totality_amended (env : Env) (url : String)
    (hslash : '/' ∈ url.data)
    (hmeta : ∀ body line pos, env.fetch url = .ok body →
        (rustLines body).find? (fun l => containsSubL l metaMarker) = some line →
        findSubL line contentAttr = some pos →
        pos + "content=".length + 1 ≤ line.length - 4) :
    (parse env url).isSome := by
  unfold parse
  split
  next => rfl
  next h1 =>
    split
    next => rfl
    next h2 =>
      split
      next e hf => rfl
      next body hf =>
        split
        next => rfl
        next hbe =>
          split
          next hjson =>
            split
            next hrf =>
              exfalso
              have hs := rfindCharL_isSome_of_mem (c := '/') (l := url.data) hslash
              rw [hrf] at hs
              simp at hs
            next i hrf => rfl
          next hjson =>
            split
            next hnl => rfl
            next line hline =>
              split
              next hnp => rfl
              next pos hpos =>
                split
                next hrf =>
                  exfalso
                  have hs := rfindCharL_isSome_of_mem (c := '/') (l := url.data) hslash
                  rw [hrf] at hs
                  simp at hs
                next i hrf =>
                  dsimp only
                  split
                  next hsl =>
                    exfalso
                    have hle := hmeta body line pos hf hline hpos
                    have hcond : pos + "content=".length + 1 ≤ line.length - 4
                        ∧ line.length - 4 ≤ line.length := ⟨hle, Nat.sub_le _ _⟩
                    simp [rsliceL, hcond] at hsl
                  next v hsl =>
                    split
                    next e hf2 => rfl
                    next b2 hf2 => rfl

/-- Closed witness for `C10_totality_amended`: with a URL containing `'/'`
and an environment whose fetch fails, `parse` returns a `Result`. -/
theorem C10_totality_witness : (parse envStub "http://a/h.json").isSome :=
  C10_totality_amended envStub "http://a/h.json" (by decide)
    (fun body line pos hf _ _ => by simp [envStub] at hf)
